import Mathlib

/-!
Shallow embedding of the mutitaskNAM training script:
`nam/metrics.py` (loss and metric functions) and `run.py` (the early-stopping
training loop, the criterion dispatch, the hyperparameter wiring, and the
outer cross-validation loop).

Tensors are embedded with exact rational entries: a 1-D tensor is a
`List ℚ`, a 2-D tensor is a `List (List ℚ)` (rows = samples, columns =
features/classes, rectangular in every run of the program).  Torch's `/` on
integer tensors is true division, embedded as division in `ℚ`.
-/

/-! ## nam/metrics.py -/

/-- Sum of squared entries of one row, the row contribution to
`(fnn_out ** 2).sum()`. -/
def sumSqRow (r : List ℚ) : ℚ :=
  (r.map fun x => x ^ 2).sum

/-- Python `(fnn_out ** 2).sum()`: the sum of the squares of all entries. -/
def sumSq (m : List (List ℚ)) : ℚ :=
  (m.map sumSqRow).sum

/-- Python `fnn_out.shape[1]`: the number of columns of a 2-D tensor (the tensors in
the program are rectangular, so the first row's length is the shape). -/
def shape1 (m : List (List ℚ)) : Nat :=
  (m.headD []).length

/-- Source `feature_loss(fnn_out, lambda_) = lambda_ * (fnn_out ** 2).sum() / fnn_out.shape[1]`. -/
def feature_loss (fnn_out : List (List ℚ)) (lambda_ : ℚ) : ℚ :=
  lambda_ * sumSq fnn_out / (shape1 fnn_out : ℚ)

/-- Source `penalized_cross_entropy(logits, truth, fnn_out, feature_penalty)`.
The term `F.binary_cross_entropy_with_logits(logits.view(-1), truth.view(-1))`
is a transcendental function (log/sigmoid) of `logits` and `truth` only; it does
not depend on `fnn_out` or `feature_penalty`, and is abstracted here as the
value `bce` of that term. -/
def penalized_cross_entropy (bce : ℚ) (fnn_out : List (List ℚ))
    (feature_penalty : ℚ) : ℚ :=
  bce + feature_loss fnn_out feature_penalty

/-- Source `penalized_cross_entropy_MutiTask(logits, truth, fnn_out, feature_penalty)`.
The term `torch.nn.CrossEntropyLoss()(logits, truth.argmax(-1))` is a
transcendental function (log-softmax) of `logits` and `truth` only; it is
abstracted here as the value `ce` of that term. -/
def penalized_cross_entropy_MutiTask (ce : ℚ) (fnn_out : List (List ℚ))
    (feature_penalty : ℚ) : ℚ :=
  ce + feature_loss fnn_out feature_penalty

/-- Torch `F.mse_loss(input, target)` with the default mean reduction:
the mean of the squared differences. -/
def mse_loss (input target : List ℚ) : ℚ :=
  ((input.zip target).map fun p => (p.1 - p.2) ^ 2).sum / (input.length : ℚ)

/-- Source `penalized_mse(logits, truth, fnn_out, feature_penalty)
  = F.mse_loss(logits.view(-1), truth.view(-1)) + feature_loss(fnn_out, feature_penalty)`. -/
def penalized_mse (logits truth : List ℚ) (fnn_out : List (List ℚ))
    (feature_penalty : ℚ) : ℚ :=
  mse_loss logits truth + feature_loss fnn_out feature_penalty

/-- Source `accuracySingle(logits, truths)
  = (((truths.view(-1) > 0) == (logits.view(-1) > 0.5)).sum() / truths.numel()).item()`,
on already-flattened 1-D tensors. -/
def accuracySingle (logits truths : List ℚ) : ℚ :=
  (((truths.zip logits).countP fun p =>
      decide ((0 : ℚ) < p.1) == decide ((1 : ℚ) / 2 < p.2) : Nat) : ℚ)
    / (truths.length : ℚ)

/-- Helper for `argmaxIdx`: fold keeping the index of the first maximum seen. -/
def argmaxGo (bi : Nat) (bv : ℚ) (i : Nat) : List ℚ → Nat
  | [] => bi
  | x :: xs => if bv < x then argmaxGo i x (i + 1) xs else argmaxGo bi bv (i + 1) xs

/-- Torch `t.argmax(-1)` for one row: the index of the first occurrence of the
maximal entry (torch returns the first maximal index). -/
def argmaxIdx : List ℚ → Nat
  | [] => 0
  | x :: xs => argmaxGo 0 x 1 xs

/-- Torch `t.numel()` of a 2-D tensor: the total number of entries. -/
def numel2 (t : List (List ℚ)) : Nat :=
  (t.map List.length).sum

/-- Source `accuracyMuti(logits, truths)
  = ((logits.argmax(-1) == truths.argmax(-1)).sum() / truths.numel()).item()`:
the number of rows whose arg-max class agrees, divided by the total number of
ENTRIES of `truths` (not its number of rows). -/
def accuracyMuti (logits truths : List (List ℚ)) : ℚ :=
  (((logits.zip truths).countP fun p =>
      argmaxIdx p.1 == argmaxIdx p.2 : Nat) : ℚ)
    / (numel2 truths : ℚ)

/-- A torch tensor of the two dynamic shapes the metric dispatch
distinguishes: 1-D or 2-D. -/
inductive PyTensor where
  | d1 : List ℚ → PyTensor
  | d2 : List (List ℚ) → PyTensor
deriving DecidableEq, Repr

/-- Torch `t.view(-1)`: flattening to 1-D. -/
def PyTensor.view_flat : PyTensor → List ℚ
  | .d1 l => l
  | .d2 m => m.flatten

/-- Torch `t.numel()`. -/
def PyTensor.numel (t : PyTensor) : Nat :=
  t.view_flat.length

/-- Python `len(t.shape)`. -/
def PyTensor.ndim : PyTensor → Nat
  | .d1 _ => 1
  | .d2 _ => 2

/-- The mean absolute error of the regression branch:
`((logits.view(-1) - truths.view(-1)).abs().sum() / logits.numel()).item()`. -/
def maeVal (logits truths : List ℚ) : ℚ :=
  ((logits.zip truths).map fun p => |p.1 - p.2|).sum / (logits.length : ℚ)

/-- Source `calculate_metric(logits, truths, regression)`: the regression branch
returns `("MAE", mean absolute error)`; otherwise dispatch on
`len(logits.shape)`: 1-D goes to `accuracySingle`, 2-D to `accuracyMuti`.
(The 2-D/1-D mixed case never occurs in the program; it is mapped through
flattening like the tensors themselves.) -/
def calculate_metric (logits truths : PyTensor) (regression : Bool) :
    String × ℚ :=
  if regression then
    ("MAE", maeVal logits.view_flat truths.view_flat)
  else
    match logits, truths with
    | .d1 l, t => ("accuracy", accuracySingle l t.view_flat)
    | .d2 l, .d2 t => ("accuracy", accuracyMuti l t)
    | .d2 l, .d1 t => ("accuracy", accuracyMuti l [t])

/-! ## run.py: criterion dispatch in `train_model` -/

/-- The three loss functions `train_model` can dispatch among. -/
inductive Criterion where
  | penalizedMse
  | penalizedCrossEntropy
  | penalizedCrossEntropyMutiTask
deriving DecidableEq, Repr

/-- The criterion dispatch of `train_model`, as written:

    criterion = nam.metrics.penalized_mse if FLAGS.regression else nam.metrics.penalized_cross_entropy
    if FLAGS.regression:
        criterion = nam.metrics.penalized_mse
    elif len(y_train.shape)==1:
        nam.metrics.penalized_cross_entropy
    else:
        nam.metrics.penalized_cross_entropy_MutiTask

The two `elif`/`else` branches are bare expression statements: they evaluate
a function object and discard it, leaving `criterion` unchanged. -/
def chooseCriterion (regression : Bool) (yTrainShapeLen : Nat) : Criterion :=
  let criterion : Criterion :=
    if regression then .penalizedMse else .penalizedCrossEntropy
  if regression then
    Criterion.penalizedMse
  else if yTrainShapeLen = 1 then
    criterion
  else
    criterion

/-! ## run.py: the early-stopping loop in `train_model` -/

/-- The observable outcome of the epoch loop of `train_model`:
the final `best_validation_score`, the final `best_weights` (`none` models
Python's `None`; `some e` models a deep copy of the model weights taken at
epoch `e`), the epoch at which the loop exited, and whether it exited through
the early-stopping `break`. -/
structure ESResult where
  best : ℚ
  bestW : Option Nat
  stopEpoch : Nat
  earlyStopped : Bool
deriving DecidableEq, Repr

/-- The epoch loop of `train_model`, with the validation score of each epoch
scripted by the input list (one entry per epoch, so the list length is the
`training_epochs` limit):

    for epoch in range(FLAGS.training_epochs):
        ...
        if val_score <= best_validation_score and n_tries > 0:
            n_tries -= 1
            continue
        elif val_score <= best_validation_score:
            break
        best_validation_score = val_score
        best_weights = copy.deepcopy(model.state_dict())
-/
def es_loop : Nat → ℚ → Option Nat → Nat → List ℚ → ESResult
  | _, best, bestW, epoch, [] => ⟨best, bestW, epoch, false⟩
  | nTries, best, bestW, epoch, s :: rest =>
    if s ≤ best ∧ 0 < nTries then
      es_loop (nTries - 1) best bestW (epoch + 1) rest
    else if s ≤ best then
      ⟨best, bestW, epoch, true⟩
    else
      es_loop nTries s (some epoch) (epoch + 1) rest

/-- Run of `train_model`'s early-stopping state machine started from the source's
initial state: `n_tries = FLAGS.early_stopping_epochs` (the patience),
`best_validation_score = 0`, `best_weights = None`, epoch `0`. -/
def train_model_es (patience : Nat) (scores : List ℚ) : ESResult :=
  es_loop patience 0 none 0 scores

/-- Modelled from the spec: the early-stopping policy as the spec words it.
"If current validation score ≤ best_score: decrement countdown if positive,
else terminate.  If validation score > best_score: reset best_score to current
score, checkpoint a deep copy of model weights."  The countdown is NOT reset
on improvement. -/
def es_spec_loop : Nat → ℚ → Option Nat → Nat → List ℚ → ESResult
  | _, best, bestW, epoch, [] => ⟨best, bestW, epoch, false⟩
  | countdown, best, bestW, epoch, s :: rest =>
    if s ≤ best then
      if 0 < countdown then
        es_spec_loop (countdown - 1) best bestW (epoch + 1) rest
      else
        ⟨best, bestW, epoch, true⟩
    else
      es_spec_loop countdown s (some epoch) (epoch + 1) rest

/-- Modelled from the spec: the spec's early-stopping run, started from
`best_score = 0` and the configured patience. -/
def early_stopping_spec (patience : Nat) (scores : List ℚ) : ESResult :=
  es_spec_loop patience 0 none 0 scores

/-- The terminal `model.load_state_dict(best_weights)` of `train_model`
succeeds exactly when `best_weights` is not `None` (on `None` it raises). -/
def terminal_load_ok (r : ESResult) : Bool :=
  r.bestW.isSome

/-! ## run.py: FLAGS and the hyperparameters `train_model` actually uses -/

/-- The command-line flags of `run.py` that parameterize training
(the values of `FLAGS.*`). -/
structure Flags where
  training_epochs : Nat
  learning_rate : ℚ
  output_regularization : ℚ
  l2_regularization : ℚ
  batch_size : Nat
  decay_rate : ℚ
  dropout : ℚ
  feature_dropout : ℚ
  n_basis_functions : Nat
  units_multiplier : Nat
  hidden_units : List Nat
  shallow_layer : String
  hidden_layer : String
  regression : Bool
  early_stopping_epochs : Nat
  seed : Nat
deriving DecidableEq, Repr

/-- The arguments `train_model` passes to the `NeuralAdditiveModel`
constructor (besides the data-derived sizes). -/
structure ModelConfig where
  hidden_units : List Nat
  shallow_layer : String
  hidden_layer : String
  hidden_dropout : ℚ
  feature_dropout : ℚ
  n_basis_functions : Nat
  units_multiplier : Nat
deriving DecidableEq, Repr

/-- The optimizer/scheduler configuration `train_model` builds. -/
structure OptimConfig where
  lr : ℚ
  weight_decay : ℚ
  scheduler_gamma : ℚ
deriving DecidableEq, Repr

/-- The model configuration `train_model` actually constructs.  Every field is
a literal in the source: `hidden_units=list(map(int, []))`,
`shallow_layer=ExULayer`, `hidden_layer=ExULayer`, `hidden_dropout=0.3`,
`feature_dropout=0.0`, and `calculate_n_units(x_train, 1000, 2)`; none of the
corresponding `FLAGS` values is read. -/
def train_model_model_config (_f : Flags) : ModelConfig :=
  { hidden_units := []
    shallow_layer := "ExULayer"
    hidden_layer := "ExULayer"
    hidden_dropout := 3 / 10
    feature_dropout := 0
    n_basis_functions := 1000
    units_multiplier := 2 }

/-- The optimizer/scheduler configuration `train_model` builds:
`AdamW(lr=FLAGS.learning_rate, weight_decay=FLAGS.l2_regularization)` and
`StepLR(gamma=0.995, step_size=1)` — the scheduler decay is the literal
`0.995`, not `FLAGS.decay_rate`. -/
def train_model_optim_config (f : Flags) : OptimConfig :=
  { lr := f.learning_rate
    weight_decay := f.l2_regularization
    scheduler_gamma := 995 / 1000 }

/-! ## run.py: the outer cross-validation loop in `main` -/

/-- How the `while True` loop of `main` exits: the only exit is the
`except StopIteration: break` arm, entered when the fold generator is
exhausted. -/
inductive LoopExit where
  | stopIteration
deriving DecidableEq, Repr

/-- The outer loop of `main` over the fold generator, with the per-fold body
(`train_model` on the fold followed by `evaluate` on the fixed test set)
abstracted as `train_and_eval`:

    while True:
        try:
            (x_train, y_train), (x_validate, y_validate) = next(train)
            model = train_model(...)
            metric, score = evaluate(model, test_loader, device)
            test_scores.append(score)
        except StopIteration:
            break

The generator's remaining yields are the input list; `next` on the empty list
raises `StopIteration`, which the loop turns into a normal exit. -/
def main_fold_loop {α : Type} (train_and_eval : α → ℚ) :
    List α → List ℚ × LoopExit
  | [] => ([], .stopIteration)
  | fold :: rest =>
    let score := train_and_eval fold
    let r := main_fold_loop train_and_eval rest
    (score :: r.1, r.2)

/-- A concrete flag assignment (the declared defaults of `run.py`). -/
def flags_a : Flags :=
  { training_epochs := 10
    learning_rate := 1 / 1000
    output_regularization := 0
    l2_regularization := 0
    batch_size := 32
    decay_rate := 995 / 1000
    dropout := 1 / 2
    feature_dropout := 0
    n_basis_functions := 1000
    units_multiplier := 2
    hidden_units := []
    shallow_layer := "exu"
    hidden_layer := "relu"
    regression := false
    early_stopping_epochs := 60
    seed := 1 }

/-- A second flag assignment: same data-, seed- and optimizer-relevant flags
as `flags_a`, but different `dropout`, `decay_rate`, `hidden_units`,
`shallow_layer`, `hidden_layer`, `feature_dropout`, `n_basis_functions` and
`units_multiplier`. -/
def flags_b : Flags :=
  { flags_a with
    decay_rate := 1 / 2
    dropout := 9 / 10
    feature_dropout := 1 / 5
    n_basis_functions := 10
    units_multiplier := 5
    hidden_units := [64, 32]
    shallow_layer := "relu"
    hidden_layer := "exu" }

/-! ## Theorems -/

/-- Claim C1: the early-stopping state machine of `train_model` behaves
exactly as the spec describes it.  The run from the source's initial state
(`best_validation_score = 0`, `n_tries` = the configured patience,
`best_weights = None`) coincides, on every scripted sequence of validation
scores (one score per epoch up to the epoch limit) and every patience, with
the spec's countdown policy: on a score ≤ best the countdown is decremented
if positive and otherwise training terminates; on a score > best the best
score is replaced and a deep copy of the weights checkpointed, the countdown
unchanged.  In particular the final best score, checkpoint and stop epoch are
exactly determined by the score sequence, the patience and the epoch limit. -/
theorem train_model_early_stopping_matches_spec (patience : Nat)
    (scores : List ℚ) :
    train_model_es patience scores = early_stopping_spec patience scores := by
  suffices h : ∀ nTries best bestW epoch,
      es_loop nTries best bestW epoch scores
        = es_spec_loop nTries best bestW epoch scores by
    exact h patience 0 none 0
  induction scores with
  | nil => intro nTries best bestW epoch; rfl
  | cons s rest ih =>
    intro nTries best bestW epoch
    by_cases h1 : s ≤ best
    · by_cases h2 : 0 < nTries
      · simp [es_loop, es_spec_loop, h1, h2, ih]
      · simp [es_loop, es_spec_loop, h1, h2]
    · simp [es_loop, es_spec_loop, h1, ih]

/-- Claim C2 (evaluation at the failing input): on the one-row one-hot pair
`logits = [[0, 1]]`, `truths = [[0, 1]]` the arg-max classes match on every
row, yet `accuracyMuti` returns `1/2`, not `1.0`: it divides the match count
by `truths.numel()` — the total number of entries — rather than by the number
of rows. -/
theorem accuracyMuti_perfect_match_not_one :
    accuracyMuti [[(0 : ℚ), 1]] [[(0 : ℚ), 1]] = 1 / 2 ∧
      ((1 : ℚ) / 2) ≠ 1 := by
  constructor
  · have h : argmaxIdx [(0 : ℚ), 1] = 1 := by norm_num [argmaxIdx, argmaxGo]
    simp [accuracyMuti, numel2, h]
  · norm_num

/-- Claim C3: with regression off, `criterion` keeps the value of its first
assignment, `penalized_cross_entropy`, whatever the dimensionality of the
training targets — the `elif`/`else` arms of the dispatch evaluate a loss
function without assigning it.  In particular for two-dimensional
(multi-class one-hot) targets the criterion is `penalized_cross_entropy` and
not `penalized_cross_entropy_MutiTask`. -/
theorem chooseCriterion_multiclass_keeps_first_assignment (d : Nat) :
    chooseCriterion false d = Criterion.penalizedCrossEntropy ∧
      chooseCriterion false 2 ≠ Criterion.penalizedCrossEntropyMutiTask := by
  constructor
  · by_cases h : d = 1 <;> simp [chooseCriterion, h]
  · decide

/-- Claim C4 (counterexample): with the default patience 60, a run over the
empty score sequence (`training_epochs = 0`) and a run in which no score
exceeds 0 both end with `best_weights = None`, so the terminal
`load_state_dict(best_weights)` does not succeed — refuting the claim that a
checkpoint exists whenever the loop ends. -/
theorem train_model_terminal_load_can_fail :
    terminal_load_ok (train_model_es 60 []) = false ∧
      terminal_load_ok (train_model_es 60 [0, 0]) = false := by
  constructor
  · rfl
  · decide

/-- Claim C4 (amended): the terminal `load_state_dict(best_weights)` of
`train_model` succeeds exactly when the run achieved a positive best
validation score, i.e. when some executed epoch improved on the initial best
score 0; with `training_epochs = 0`, or when every validation score is ≤ 0,
`best_weights` remains `None` and the load fails. -/
theorem train_model_terminal_load_ok_iff (patience : Nat) (scores : List ℚ) :
    terminal_load_ok (train_model_es patience scores) = true ↔
      0 < (train_model_es patience scores).best := by
  suffices h : ∀ nTries best bestW epoch,
      ((bestW : Option Nat).isSome ↔ 0 < best) → 0 ≤ best →
      ((es_loop nTries best bestW epoch scores).bestW.isSome ↔
        0 < (es_loop nTries best bestW epoch scores).best) by
    simpa [terminal_load_ok, train_model_es] using
      h patience 0 none 0 (by simp) le_rfl
  induction scores with
  | nil => intro nTries best bestW epoch h _; simpa [es_loop] using h
  | cons s rest ih =>
    intro nTries best bestW epoch h h0
    by_cases h1 : s ≤ best
    · by_cases h2 : 0 < nTries
      · simpa [es_loop, h1, h2] using ih _ best bestW _ h h0
      · simpa [es_loop, h1, h2] using h
    · push_neg at h1
      have hs : 0 < s := lt_of_le_of_lt h0 h1
      simpa [es_loop, h1.not_le] using
        ih nTries s (some epoch) (epoch + 1) (by simp [hs]) hs.le

/-- Claim C6 (evaluation at the failing input): `train_model` passes literal
hyperparameters to the model constructor and the scheduler, so its model
configuration is the same constant for ALL flag assignments, and two flag
assignments that differ in `dropout`, `decay_rate`, `hidden_units`,
`shallow_layer`, `hidden_layer`, `feature_dropout`, `n_basis_functions` and
`units_multiplier` (but agree on the flags `train_model` does read) produce
identical model and optimizer/scheduler configurations — the runs behave
identically, refuting the claim that each such flag controls the run. -/
theorem train_model_ignores_listed_flags :
    (∀ f g : Flags, train_model_model_config f = train_model_model_config g) ∧
      flags_a.dropout ≠ flags_b.dropout ∧
      flags_a.decay_rate ≠ flags_b.decay_rate ∧
      flags_a.hidden_units ≠ flags_b.hidden_units ∧
      flags_a.shallow_layer ≠ flags_b.shallow_layer ∧
      flags_a.hidden_layer ≠ flags_b.hidden_layer ∧
      flags_a.feature_dropout ≠ flags_b.feature_dropout ∧
      flags_a.n_basis_functions ≠ flags_b.n_basis_functions ∧
      flags_a.units_multiplier ≠ flags_b.units_multiplier ∧
      train_model_model_config flags_a = train_model_model_config flags_b ∧
      train_model_optim_config flags_a = train_model_optim_config flags_b := by
  refine ⟨fun f g => rfl, ?_, ?_, ?_, ?_, ?_, ?_, ?_, ?_, rfl, rfl⟩
  · norm_num [flags_a, flags_b]
  · norm_num [flags_a, flags_b]
  · decide
  · decide
  · decide
  · norm_num [flags_a, flags_b]
  · decide
  · decide

/-- The row sum of squares distributes over concatenation of rows. -/
theorem sumSqRow_append (r s : List ℚ) :
    sumSqRow (r ++ s) = sumSqRow r + sumSqRow s := by
  simp [sumSqRow]

/-- Unfolding `sumSq` on a cons. -/
theorem sumSq_cons (m : List ℚ) (Ms : List (List ℚ)) :
    sumSq (m :: Ms) = sumSqRow m + sumSq Ms := by
  simp [sumSq]

/-- Sum `sumSq` distributes over vertical stacking. -/
theorem sumSq_append (a b : List (List ℚ)) :
    sumSq (a ++ b) = sumSq a + sumSq b := by
  simp [sumSq]

/-- Duplicating every row horizontally doubles the sum of squares. -/
theorem sumSq_map_self_append (M : List (List ℚ)) :
    sumSq (M.map fun r => r ++ r) = 2 * sumSq M := by
  induction M with
  | nil => simp [sumSq]
  | cons m Ms ih =>
    rw [List.map_cons, sumSq_cons, sumSq_cons, ih, sumSqRow_append]
    ring

/-- The sum of squares of the entries is non-negative. -/
theorem sumSq_nonneg (M : List (List ℚ)) : 0 ≤ sumSq M := by
  apply List.sum_nonneg
  intro x hx
  simp only [List.mem_map] at hx
  obtain ⟨r, _, rfl⟩ := hx
  apply List.sum_nonneg
  intro y hy
  simp only [List.mem_map] at hy
  obtain ⟨z, _, rfl⟩ := hy
  positivity

/-- Claim C5: in each of `penalized_cross_entropy`,
`penalized_cross_entropy_MutiTask` and `penalized_mse`, the feature penalty
added by the weight λ is `λ * (Σ fnn_out²) / fnn_out.shape[1]` — normalized
by the number of feature columns, not by the batch size.  With the same
per-element values, doubling the batch (stacking the rows twice) doubles the
penalty — so a non-zero penalty changes — while doubling the feature count
(repeating every row's entries) leaves the penalty unchanged. -/
theorem feature_penalty_feature_normalized (M : List (List ℚ))
    (lam bce ce : ℚ) (logits truth : List ℚ) (hM : M ≠ []) :
    penalized_cross_entropy bce M lam - penalized_cross_entropy bce M 0
        = lam * sumSq M / (shape1 M : ℚ) ∧
      penalized_cross_entropy_MutiTask ce M lam
          - penalized_cross_entropy_MutiTask ce M 0
        = lam * sumSq M / (shape1 M : ℚ) ∧
      penalized_mse logits truth M lam - penalized_mse logits truth M 0
        = lam * sumSq M / (shape1 M : ℚ) ∧
      feature_loss (M ++ M) lam = 2 * feature_loss M lam ∧
      (feature_loss M lam ≠ 0 → feature_loss (M ++ M) lam ≠ feature_loss M lam) ∧
      feature_loss (M.map fun r => r ++ r) lam = feature_loss M lam := by
  obtain ⟨m, Ms, rfl⟩ : ∃ m Ms, M = m :: Ms := by
    cases M with
    | nil => exact absurd rfl hM
    | cons m Ms => exact ⟨m, Ms, rfl⟩
  have hvs : feature_loss ((m :: Ms) ++ (m :: Ms)) lam
      = 2 * feature_loss (m :: Ms) lam := by
    have hsh : shape1 ((m :: Ms) ++ (m :: Ms)) = shape1 (m :: Ms) := rfl
    simp only [feature_loss, hsh, sumSq_append]
    ring
  have hhs : feature_loss ((m :: Ms).map fun r => r ++ r) lam
      = feature_loss (m :: Ms) lam := by
    have hsh : (shape1 ((m :: Ms).map fun r => r ++ r) : ℚ)
        = 2 * (shape1 (m :: Ms) : ℚ) := by
      simp [shape1, List.length_append]
      ring
    simp only [feature_loss, hsh, sumSq_map_self_append]
    rw [show lam * (2 * sumSq (m :: Ms)) = 2 * (lam * sumSq (m :: Ms)) by ring,
      mul_div_mul_left _ _ (two_ne_zero)]
  refine ⟨?_, ?_, ?_, hvs, fun h heq => ?_, hhs⟩
  · simp [penalized_cross_entropy, feature_loss]
  · simp [penalized_cross_entropy_MutiTask, feature_loss]
  · simp [penalized_mse, feature_loss]
  · rw [hvs] at heq
    exact h (by linarith)

/-- Claim C5 witness: at the concrete one-entry tensor `[[1]]` with λ = 1,
stacking the batch twice doubles the penalty. -/
theorem feature_penalty_feature_normalized_witness :
    feature_loss ([[(1 : ℚ)]] ++ [[(1 : ℚ)]]) 1 = 2 * feature_loss [[(1 : ℚ)]] 1 :=
  (feature_penalty_feature_normalized [[(1 : ℚ)]] 1 0 0 [] [] (by simp)).2.2.2.1

/-- Claim C7: for equally-sized non-empty 1-D logits and truths,
`accuracySingle` returns 1 when every element agrees under the thresholds
(`truth > 0` iff `logit > 0.5`) and 0 when every element disagrees. -/
theorem accuracySingle_all_agree_or_disagree (logits truths : List ℚ)
    (hlen : logits.length = truths.length) (hne : truths ≠ []) :
    ((∀ p ∈ truths.zip logits, ((0 : ℚ) < p.1 ↔ (1 : ℚ) / 2 < p.2)) →
        accuracySingle logits truths = 1) ∧
      ((∀ p ∈ truths.zip logits, ¬((0 : ℚ) < p.1 ↔ (1 : ℚ) / 2 < p.2)) →
        accuracySingle logits truths = 0) := by
  have hzip : (truths.zip logits).length = truths.length := by
    rw [List.length_zip, hlen, min_self]
  have hn : ((truths.length : ℚ)) ≠ 0 := by
    have := List.length_pos.mpr hne
    exact_mod_cast this.ne'
  constructor
  · intro h
    have hc : (truths.zip logits).countP
        (fun p => decide ((0 : ℚ) < p.1) == decide ((1 : ℚ) / 2 < p.2))
        = (truths.zip logits).length := by
      rw [List.countP_eq_length]
      intro p hp
      have := h p hp
      simp [decide_eq_decide, this]
    rw [accuracySingle, hc, hzip, div_self hn]
  · intro h
    have hc : (truths.zip logits).countP
        (fun p => decide ((0 : ℚ) < p.1) == decide ((1 : ℚ) / 2 < p.2)) = 0 := by
      rw [List.countP_eq_zero]
      intro p hp
      have := h p hp
      simpa [decide_eq_decide] using this
    rw [accuracySingle, hc]
    simp

/-- Claim C7 witness: on `logits = [1]`, `truths = [1]` every element agrees
and the accuracy is 1; on `logits = [1]`, `truths = [-1]` every element
disagrees and the accuracy is 0. -/
theorem accuracySingle_all_agree_or_disagree_witness :
    accuracySingle [(1 : ℚ)] [(1 : ℚ)] = 1 ∧
      accuracySingle [(1 : ℚ)] [(-1 : ℚ)] = 0 := by
  constructor
  · refine (accuracySingle_all_agree_or_disagree [(1 : ℚ)] [(1 : ℚ)] rfl
      (by simp)).1 ?_
    intro p hp
    simp only [List.zip_cons_cons, List.zip_nil_right, List.mem_singleton] at hp
    subst hp
    norm_num
  · refine (accuracySingle_all_agree_or_disagree [(1 : ℚ)] [(-1 : ℚ)] rfl
      (by simp)).2 ?_
    intro p hp
    simp only [List.zip_cons_cons, List.zip_nil_right, List.mem_singleton] at hp
    subst hp
    norm_num

/-- Claim C8: with `regression=True`, `calculate_metric` returns the label
"MAE" paired with the mean absolute error (sum of absolute elementwise
differences over the number of elements), and the value is invariant under
any simultaneous permutation of the elements of logits and truths. -/
theorem calculate_metric_regression_mae_perm (l t lp tp : List ℚ)
    (hl : l.length = t.length) (hlp : lp.length = tp.length)
    (hperm : (l.zip t).Perm (lp.zip tp)) (_hne : l ≠ []) :
    calculate_metric (.d1 l) (.d1 t) true = ("MAE", maeVal l t) ∧
      maeVal l t = ((l.zip t).map fun p => |p.1 - p.2|).sum / (l.length : ℚ) ∧
      calculate_metric (.d1 l) (.d1 t) true
        = calculate_metric (.d1 lp) (.d1 tp) true := by
  have hlen : l.length = lp.length := by
    have h1 := hperm.length_eq
    rw [List.length_zip, List.length_zip, hl, hlp, min_self, min_self] at h1
    rw [hl, hlp]
    exact h1
  have hsum : ((l.zip t).map fun p => |p.1 - p.2|).sum
      = ((lp.zip tp).map fun p => |p.1 - p.2|).sum :=
    (hperm.map _).sum_eq
  refine ⟨rfl, rfl, ?_⟩
  simp [calculate_metric, PyTensor.view_flat, maeVal, hsum, hlen]

/-- Claim C8 witness: swapping the two (logit, truth) pairs of a concrete
two-element input leaves the regression metric unchanged. -/
theorem calculate_metric_regression_mae_perm_witness :
    calculate_metric (.d1 [(1 : ℚ), 2]) (.d1 [(0 : ℚ), 3]) true
      = calculate_metric (.d1 [(2 : ℚ), 1]) (.d1 [(3 : ℚ), 0]) true :=
  (calculate_metric_regression_mae_perm [(1 : ℚ), 2] [(0 : ℚ), 3]
    [(2 : ℚ), 1] [(3 : ℚ), 0] rfl rfl (List.Perm.swap _ _ _) (by simp)).2.2

/-- Claim C9 (counterexample): the claim quantifies over every penalty weight
λ, but at λ = -1 and the one-entry tensor `[[1]]` (one feature column) the
feature loss is -1 < 0: `feature_loss` is NOT non-negative for negative λ. -/
theorem feature_loss_negative_for_negative_lambda :
    feature_loss [[(1 : ℚ)]] (-1) < 0 := by
  norm_num [feature_loss, sumSq, sumSqRow, shape1]

/-- Claim C9 (amended): for every tensor with at least one feature column,
`feature_loss` is non-negative for every non-negative λ, and for every λ it
scales linearly in λ: `feature_loss(fnn_out, c·λ) = c·feature_loss(fnn_out, λ)`
and `feature_loss(fnn_out, 0) = 0`. -/
theorem feature_loss_nonneg_and_linear (fnn_out : List (List ℚ)) (lam c : ℚ)
    (hcol : 0 < shape1 fnn_out) :
    (0 ≤ lam → 0 ≤ feature_loss fnn_out lam) ∧
      feature_loss fnn_out (c * lam) = c * feature_loss fnn_out lam ∧
      feature_loss fnn_out 0 = 0 := by
  refine ⟨fun hlam => ?_, ?_, ?_⟩
  · have hS := sumSq_nonneg fnn_out
    have hk : (0 : ℚ) ≤ (shape1 fnn_out : ℚ) := by positivity
    exact div_nonneg (mul_nonneg hlam hS) hk
  · simp only [feature_loss]
    ring
  · simp [feature_loss]

/-- Claim C9 witness: at the one-entry tensor `[[2]]`, λ = 3, c = 5 the
amended properties hold concretely. -/
theorem feature_loss_nonneg_and_linear_witness :
    0 ≤ feature_loss [[(2 : ℚ)]] 3 ∧
      feature_loss [[(2 : ℚ)]] ((5 : ℚ) * 3) = 5 * feature_loss [[(2 : ℚ)]] 3 :=
  ⟨(feature_loss_nonneg_and_linear [[(2 : ℚ)]] 3 5 (by norm_num [shape1])).1
      (by norm_num),
    (feature_loss_nonneg_and_linear [[(2 : ℚ)]] 3 5 (by norm_num [shape1])).2.1⟩

/-- Claim C10: the outer cross-validation loop of `main` consumes every
(train, validate) pair the fold generator yields, produces exactly one test
score per pair — the evaluation of the model trained on that pair — in
order, and exits normally through the `except StopIteration` arm once the
generator is exhausted. -/
theorem main_fold_loop_consumes_all {α : Type} (train_and_eval : α → ℚ)
    (folds : List α) :
    (main_fold_loop train_and_eval folds).1 = folds.map train_and_eval ∧
      ((main_fold_loop train_and_eval folds).1).length = folds.length ∧
      (main_fold_loop train_and_eval folds).2 = LoopExit.stopIteration := by
  induction folds with
  | nil => exact ⟨rfl, rfl, rfl⟩
  | cons fold rest ih =>
    refine ⟨?_, ?_, ?_⟩ <;>
      simp [main_fold_loop, ih.1, ih.2.1, ih.2.2]
